import Mathlib

/-!
Verification development for the cross-critic concurrent multi-reviewer
orchestration engine.

This file gives a shallow embedding, in Lean 4, of the core modules
`core/multi_model.py`, `core/parallel_review.py` and `core/debate.py`:

* the N-model fan-out caller `MultiModelReviewer.review` with its
  sequential per-future wait loop and short-circuit timeout marking,
* the consensus scorer `MultiModelReviewer._calculate_consensus`,
* the two-party `ParallelReviewer.review` and its conflict detector
  `_detect_conflicts`,
* the debate engine `DebateEngine.continue_debate` with its round cap,
* the loop checkpoint `LoopState` / `LoopManager` persistence layer.

Concurrency is embedded by abstracting each model client's call as a
`CallBehavior`: the call either completes at some (absolute, seconds
from submission) time with a response or a raised exception message, or
it never completes.  All tasks are submitted at time 0 (the thread pool
is sized to the number of clients, so every task starts immediately);
the main thread's sequential `future.result(timeout=...)` collection
loop is then a deterministic function of those behaviors, which the
definitions below mirror statement by statement.

Machine-level caveats recorded as modelling notes:
* Python compares `count > len(reviews) / 2` with float division; for
  list lengths below 2^52 this is exact, so it is embedded as the
  integer comparison `len < 2 * count`.
* `str.lower()` is embedded as per-character ASCII lowering
  (`Char.toLower`); every vocabulary keyword is ASCII-lowercase or
  Korean, so keyword matching is unaffected.
* Scores are embedded as rationals; the Python float division
  `consensus_keywords / total_keywords` is exact in the claims used
  here only through its defining quotient, which the rational mirrors.
-/

/-- Boolean test that the first list is a prefix of the second
(structural recursion so that the kernel can evaluate it). -/
def isPrefixL : List Char → List Char → Bool
  | [], _ => true
  | _ :: _, [] => false
  | a :: as, b :: bs => a = b && isPrefixL as bs

/-- Boolean test that `needle` occurs as a contiguous substring of the
second list, mirroring Python's `needle in hay` on strings. -/
def isSubstrL (needle : List Char) : List Char → Bool
  | [] => isPrefixL needle []
  | c :: rest => isPrefixL needle (c :: rest) || isSubstrL needle rest

/-- Python `needle in hay` (substring containment) on strings. -/
def pyIn (needle hay : String) : Bool := isSubstrL needle.data hay.data

/-- Python `s.lower()`, embedded as ASCII per-character lowering.  All
vocabulary keywords are ASCII-lowercase or Korean, so this agrees with
CPython on every comparison the engine performs. -/
def pyLower (s : String) : String := ⟨s.data.map Char.toLower⟩

/-- Embedding of `core/models.py::ModelResponse` (the display-only
`raw_response` payload is not modelled). -/
structure ModelResponse where
  content : String
  model : String
  tokens_used : Option Nat := none
deriving Repr, DecidableEq

namespace MultiModelReviewer

/-- Embedding of `MultiModelReviewer.CONSENSUS_KEYWORDS`
(`core/multi_model.py`), in source order. -/
def CONSENSUS_KEYWORDS : List String := [
  -- security
  "security", "vulnerability", "injection", "xss", "csrf", "auth",
  "보안", "취약점", "인증",
  -- performance
  "performance", "slow", "memory", "cpu", "optimization",
  "성능", "최적화", "메모리",
  -- code quality
  "error", "exception", "bug", "fix",
  "에러", "버그", "오류",
  -- architecture
  "architecture", "design", "pattern", "structure",
  "아키텍처", "설계", "패턴", "구조",
  -- style
  "naming", "convention", "format", "style", "readable",
  "네이밍", "컨벤션", "가독성", "스타일"]

/-- Number of successful reviews whose lowered content contains the
lowered keyword (the value `keyword_counts[keyword]` accumulated by
`_calculate_consensus`; a keyword absent from every review has count 0
and is absent from the `Counter`). -/
def keywordCount (reviews : List ModelResponse) (kw : String) : Nat :=
  (reviews.filter (fun r => pyIn (pyLower kw) (pyLower r.content))).length

/-- Keywords of the vocabulary mentioned by at least one review: the
key set of `keyword_counts`, in vocabulary order (`total_keywords` is
its length). -/
def mentionedKeywords (reviews : List ModelResponse) : List String :=
  CONSENSUS_KEYWORDS.filter (fun kw => decide (0 < keywordCount reviews kw))

/-- Keywords whose count strictly exceeds `len(reviews) / 2`
(`consensus_keywords` in `_calculate_consensus`; the float comparison
`count > len / 2` is exact and embedded as `len < 2 * count`). -/
def consensusKeywords (reviews : List ModelResponse) : List String :=
  CONSENSUS_KEYWORDS.filter
    (fun kw => decide (0 < keywordCount reviews kw) &&
      decide (reviews.length < 2 * keywordCount reviews kw))

/-- Embedding of `MultiModelReviewer._calculate_consensus`
(`core/multi_model.py`), on the list of successful reviews. -/
def calculate_consensus (reviews : List ModelResponse) : ℚ :=
  if reviews.length < 2 then
    if reviews.length = 0 then 0 else 1
  else if mentionedKeywords reviews = [] then 0
  else ((consensusKeywords reviews).length : ℚ) / ((mentionedKeywords reviews).length : ℚ)

end MultiModelReviewer

/-- Abstraction of one model client's `call(prompt, context)` for a
fixed prompt/context: the underlying task either completes `t` seconds
after submission — returning a response (`Except.ok`) or raising an
exception whose `str` is the given message (`Except.error`) — or it
never completes.  All tasks are submitted at time 0: the executor has
`max_workers = len(clients)`, so no task waits for a worker. -/
inductive CallBehavior where
  | completes (t : Nat) (result : Except String ModelResponse)
  | never
deriving Repr

/-- Model client as the fan-out caller sees it: its `name` property and
the behavior of its `call` for the submitted prompt. -/
structure ClientSpec where
  name : String
  behavior : CallBehavior
deriving Repr

namespace MultiModelReviewer

/-- Result of `future.result(timeout=timeout)` on the wrapper
`call_model(idx, client)` at wall-clock time `now`, combined with the
wrapper's catch-all (`call_model` returns `(idx, response, None)` on
success and `(idx, None, f"{client.name}: {e}")` on any exception, so
`future.result` itself can only raise `FuturesTimeoutError`).
`none` is that timeout; `some (t, r, e)` is a return at time `t` with
the wrapper's review/error pair. -/
def futureWait (c : ClientSpec) (now timeout : Nat) :
    Option (Nat × Option ModelResponse × Option String) :=
  match c.behavior with
  | .never => none
  | .completes t res =>
    if t ≤ now + timeout then
      some (max now t,
        match res with
        | .ok resp => (some resp, none)
        | .error msg => (none, some (c.name ++ ": " ++ msg)))
    else none

/-- Embedding of the `FuturesTimeoutError` handler of
`MultiModelReviewer.review`: every index whose review and error slots
are both still `None` gets `f"{self.clients[i].name}: Timed out after
{timeout}s"`; already-recorded slots are kept. -/
def markTimeouts (timeout : Nat) :
    List ClientSpec → List (Option ModelResponse) → List (Option String) →
    List (Option String)
  | c :: cs, r :: rs, e :: es =>
    (if r.isNone && e.isNone then
      some (c.name ++ ": Timed out after " ++ toString timeout ++ "s")
    else e) :: markTimeouts timeout cs rs es
  | _, _, _ => []

/-- Embedding of the collection loop `for future in futures: ...` of
`MultiModelReviewer.review`: futures are walked in submission order;
a returned `(idx, response, error)` is written at index `idx`; the
first expired wait marks every unrecorded index as timed out and
breaks. -/
def collect (clients : List ClientSpec) (timeout : Nat) :
    List (Nat × ClientSpec) → Nat →
    List (Option ModelResponse) → List (Option String) →
    List (Option ModelResponse) × List (Option String)
  | [], _, reviews, errors => (reviews, errors)
  | (idx, c) :: rest, now, reviews, errors =>
    match futureWait c now timeout with
    | some (t, r, e) => collect clients timeout rest t (reviews.set idx r) (errors.set idx e)
    | none => (reviews, markTimeouts timeout clients reviews errors)

/-- Embedding of `MultiModelReviewResult` (`core/multi_model.py`); the
display-only `synthesized` markdown summary is not modelled. -/
structure MultiModelReviewResult where
  reviews : List (Option ModelResponse)
  errors : List (Option String)
  consensus_score : ℚ := 0
deriving Repr, DecidableEq

/-- Property `MultiModelReviewResult.success_count`. -/
def MultiModelReviewResult.success_count (res : MultiModelReviewResult) : Nat :=
  (res.reviews.filter Option.isSome).length

/-- Property `MultiModelReviewResult.total_count`. -/
def MultiModelReviewResult.total_count (res : MultiModelReviewResult) : Nat :=
  res.reviews.length

/-- Property `MultiModelReviewResult.all_success`. -/
def MultiModelReviewResult.all_success (res : MultiModelReviewResult) : Bool :=
  res.reviews.all Option.isSome

/-- Property `MultiModelReviewResult.any_success`. -/
def MultiModelReviewResult.any_success (res : MultiModelReviewResult) : Bool :=
  res.reviews.any Option.isSome

/-- Default aggregate timeout `int(self.timeout * 1.5)` (exact for
representable ints, hence floor of `3t/2`). -/
def defaultParallelTimeout (t : Nat) : Nat := 3 * t / 2

/-- Embedding of `MultiModelReviewer.review` for a given aggregate
timeout (the resolved `parallel_timeout`): pre-sized `None` arrays, one
submitted future per client in input order, the sequential collection
loop, then consensus scoring over the successful reviews. -/
def review (clients : List ClientSpec) (timeout : Nat) : MultiModelReviewResult :=
  let init := (List.replicate clients.length (none : Option ModelResponse),
               List.replicate clients.length (none : Option String))
  let out := collect clients timeout clients.enum 0 init.1 init.2
  { reviews := out.1
    errors := out.2
    consensus_score := calculate_consensus (out.1.filterMap id) }

/-- Embedding of `MultiModelReviewer.__init__`: zero clients raise
`ValueError("At least one model client is required")`; otherwise the
configured client list is stored. -/
def mkMultiModelReviewer (clients : List ClientSpec) :
    Except String (List ClientSpec) :=
  if clients.isEmpty then .error "At least one model client is required"
  else .ok clients

end MultiModelReviewer

namespace ParallelReviewer

/-- Embedding of `ConflictType` (`core/parallel_review.py`). -/
inductive ConflictType where
  | security
  | performance
  | style
  | architecture
deriving Repr, DecidableEq

/-- Embedding of `ReviewConflict`. -/
structure ReviewConflict where
  type : ConflictType
  gpt_opinion : String
  claude_opinion : String
  recommended : Option String := none
deriving Repr, DecidableEq

/-- Embedding of `ParallelReviewer.SECURITY_KEYWORDS`, in source
order (every entry is already lowercase). -/
def SECURITY_KEYWORDS : List String :=
  ["security", "vulnerability", "injection", "xss", "csrf", "auth", "보안", "취약점"]

/-- Embedding of `ParallelReviewer.PERFORMANCE_KEYWORDS`. -/
def PERFORMANCE_KEYWORDS : List String :=
  ["performance", "slow", "memory", "cpu", "optimization", "성능", "최적화"]

/-- Embedding of `ParallelReviewer.STYLE_KEYWORDS`. -/
def STYLE_KEYWORDS : List String :=
  ["naming", "convention", "format", "style", "네이밍", "스타일", "컨벤션"]

/-- Embedding of `ParallelReviewer._detect_conflicts`: with both
reviews present, scan `SECURITY_KEYWORDS` in order and, at the first
keyword contained in exactly one of the two lowered contents, record a
single security conflict and break; with either review absent, return
no conflicts. -/
def detect_conflicts (gpt_review claude_review : Option ModelResponse) :
    List ReviewConflict :=
  match gpt_review, claude_review with
  | some g, some c =>
    let gpt_content := pyLower g.content
    let claude_content := pyLower c.content
    match SECURITY_KEYWORDS.find?
        (fun kw => pyIn kw gpt_content != pyIn kw claude_content) with
    | some kw =>
      let gpt_has := pyIn kw gpt_content
      [{ type := ConflictType.security
         gpt_opinion :=
           if gpt_has then "Mentioned security concern" else "No security concern mentioned"
         claude_opinion :=
           if pyIn kw claude_content then "Mentioned security concern"
           else "No security concern mentioned"
         recommended :=
           some ("Review security concern from: " ++ if gpt_has then "GPT" else "Claude") }]
    | none => []
  | _, _ => []

/-- Embedding of `ParallelReviewResult` (`core/parallel_review.py`);
the display-only `synthesized` markdown summary is not modelled. -/
structure ParallelReviewResult where
  gpt_review : Option ModelResponse
  claude_review : Option ModelResponse
  gpt_error : Option String := none
  claude_error : Option String := none
  conflicts : List ReviewConflict := []
deriving Repr, DecidableEq

/-- Property `ParallelReviewResult.success` (at least one review
succeeded). -/
def ParallelReviewResult.success (res : ParallelReviewResult) : Bool :=
  res.gpt_review.isSome || res.claude_review.isSome

/-- Property `ParallelReviewResult.both_success`. -/
def ParallelReviewResult.both_success (res : ParallelReviewResult) : Bool :=
  res.gpt_review.isSome && res.claude_review.isSome

/-- Outcome of one party's `future.result(timeout=timeout)` wait in
`ParallelReviewer.review`, starting at wall-clock time `now`: returns
the new wall-clock time plus the review/error pair written by that
party's `try/except` block.  A raised `CodexError`/`ClaudeError`
records `str(e)`; an expired wait records
`f"{party} timed out after {timeout}s"`. -/
def partyWait (party : String) (b : CallBehavior) (now timeout : Nat) :
    Nat × Option ModelResponse × Option String :=
  match b with
  | .never => (now + timeout, none,
      some (party ++ " timed out after " ++ toString timeout ++ "s"))
  | .completes t res =>
    if t ≤ now + timeout then
      (max now t,
        match res with
        | .ok resp => (some resp, none)
        | .error msg => (none, some msg))
    else (now + timeout, none,
      some (party ++ " timed out after " ++ toString timeout ++ "s"))

/-- Embedding of `ParallelReviewer.review` for a given aggregate
timeout: both futures are submitted at time 0; the GPT result is
collected first with a wait of up to `timeout`, then the Claude result
with its own full wait of up to `timeout` (each party's `try/except`
is independent — there is no short-circuit in this two-party path). -/
def review (gpt claude : ClientSpec) (timeout : Nat) : ParallelReviewResult :=
  let g := partyWait "GPT" gpt.behavior 0 timeout
  let c := partyWait "Claude" claude.behavior g.1 timeout
  { gpt_review := g.2.1
    claude_review := c.2.1
    gpt_error := g.2.2
    claude_error := c.2.2
    conflicts := detect_conflicts g.2.1 c.2.1 }

end ParallelReviewer

namespace DebateEngine

/-- Embedding of `DebateRound` (`core/debate.py`). -/
structure DebateRound where
  round_number : Nat
  gpt_response : Option String
  claude_response : Option String
  gpt_error : Option String := none
  claude_error : Option String := none
deriving Repr, DecidableEq

/-- Embedding of `DebateResult`. -/
structure DebateResult where
  rounds : List DebateRound
deriving Repr, DecidableEq

/-- Property `DebateResult.round_count`. -/
def DebateResult.round_count (d : DebateResult) : Nat := d.rounds.length

/-- Property `DebateResult.latest_round`. -/
def DebateResult.latest_round (d : DebateResult) : Option DebateRound :=
  d.rounds.getLast?

/-- Constant `DebateEngine.MAX_ROUNDS`. -/
def MAX_ROUNDS : Nat := 5

/-- DebateRound built from one parallel-review outcome, as both
`DebateEngine.start` and `DebateEngine.continue_debate` build it. -/
def roundOfParallel (n : Nat) (p : ParallelReviewer.ParallelReviewResult) :
    DebateRound :=
  { round_number := n
    gpt_response := p.gpt_review.map ModelResponse.content
    claude_response := p.claude_review.map ModelResponse.content
    gpt_error := p.gpt_error
    claude_error := p.claude_error }

/-- Embedding of `DebateEngine.start`: round 1 from one parallel
review (the reviewer invocation is abstracted by its result, which
`ParallelReviewer.review` always returns without raising). -/
def start (p : ParallelReviewer.ParallelReviewResult) : DebateResult :=
  { rounds := [roundOfParallel 1 p] }

/-- Embedding of `DebateEngine.continue_debate` with the reviewer
invocation abstracted by its result `p` (it is only consulted after
the cap check passes; `ParallelReviewer.review` never raises): at
`round_count >= MAX_ROUNDS` raise
`ValueError(f"Maximum rounds ({MAX_ROUNDS}) reached")` before any call
or append; otherwise append exactly one round numbered
`round_count + 1`. -/
def continue_debate (debate : DebateResult)
    (p : ParallelReviewer.ParallelReviewResult) : Except String DebateResult :=
  if MAX_ROUNDS ≤ debate.round_count then
    .error ("Maximum rounds (" ++ toString MAX_ROUNDS ++ ") reached")
  else
    .ok { rounds := debate.rounds ++ [roundOfParallel (debate.round_count + 1) p] }

end DebateEngine

/-- JSON value as `json.loads` produces it for the checkpoint file
(the checkpoint's numeric fields are ints, so only integer numbers are
modelled). -/
inductive JsonValue where
  | null
  | bool (b : Bool)
  | num (n : Int)
  | str (s : String)
  | arr (elems : List JsonValue)
  | obj (fields : List (String × JsonValue))
deriving Repr

namespace LoopCheckpoint

/-- Python `data.get(key)` on a JSON object (keys written by
`json.dumps` of a dict are unique, so the first match is the value). -/
def dictGet (data : List (String × JsonValue)) (k : String) : Option JsonValue :=
  data.lookup k

/-- Value of `data.get(k, default)` for an int-typed dataclass field.
A value outside the field's declared type is collapsed to the default
in this typed embedding (CPython would store it untyped; no verified
property depends on that case). -/
def getIntOr (data : List (String × JsonValue)) (k : String) (dflt : Int) : Int :=
  match dictGet data k with
  | some (.num n) => n
  | _ => dflt

/-- Value of `data.get(k, default)` for a str-typed field. -/
def getStrOr (data : List (String × JsonValue)) (k : String) (dflt : String) : String :=
  match dictGet data k with
  | some (.str s) => s
  | _ => dflt

/-- Value of `data.get(k, default)` for a bool-typed field. -/
def getBoolOr (data : List (String × JsonValue)) (k : String) (dflt : Bool) : Bool :=
  match dictGet data k with
  | some (.bool b) => b
  | _ => dflt

/-- Value of `data.get(k, [])` for the `list[str]` field. -/
def getStrListOr (data : List (String × JsonValue)) (k : String) : List String :=
  match dictGet data k with
  | some (.arr xs) => xs.filterMap (fun v => match v with | .str s => some s | _ => none)
  | _ => []

/-- Value of `data.get(k, [])` for the `list[dict]` history field
(entries are kept as raw JSON values, as CPython does). -/
def getArrOr (data : List (String × JsonValue)) (k : String) : List JsonValue :=
  match dictGet data k with
  | some (.arr xs) => xs
  | _ => []

/-- Embedding of `LoopState` (`core/parallel_review.py`) with its
dataclass defaults.  `history` entries are raw JSON objects, as in the
Python `list[dict]`. -/
structure LoopState where
  iteration : Int := 1
  max_iterations : Int := 5
  phase : String := "plan_review"
  last_conflicts : List String := []
  resolved : Bool := false
  history : List JsonValue := []
deriving Repr

/-- Embedding of `LoopState.to_dict`. -/
def LoopState.to_dict (s : LoopState) : List (String × JsonValue) :=
  [("iteration", .num s.iteration),
   ("max_iterations", .num s.max_iterations),
   ("phase", .str s.phase),
   ("last_conflicts", .arr (s.last_conflicts.map .str)),
   ("resolved", .bool s.resolved),
   ("history", .arr s.history)]

/-- Embedding of `LoopState.from_dict`: each field is `data.get(key,
default)` with the dataclass default. -/
def LoopState.from_dict (data : List (String × JsonValue)) : LoopState :=
  { iteration := getIntOr data "iteration" 1
    max_iterations := getIntOr data "max_iterations" 5
    phase := getStrOr data "phase" "plan_review"
    last_conflicts := getStrListOr data "last_conflicts"
    resolved := getBoolOr data "resolved" false
    history := getArrOr data "history" }

/-- State of the persisted checkpoint file as `load_or_create`
observes it: missing, present but not parseable as JSON
(`json.loads` raises `JSONDecodeError`), or present with a parsed
JSON value. -/
inductive FileContents where
  | absent
  | invalidJson
  | json (v : JsonValue)

/-- Embedding of `LoopManager.load_or_create`: a missing file yields
the default state; a `json.JSONDecodeError` (or the dead `KeyError`
case) is caught and yields the default state; a parsed JSON object is
fed to `from_dict`.  A parsed JSON value that is not an object makes
`data.get` raise `AttributeError`, which the
`except (json.JSONDecodeError, KeyError)` clause does not catch, so it
propagates to the caller (`Except.error`). -/
def load_or_create : FileContents → Except String LoopState
  | .absent => .ok {}
  | .invalidJson => .ok {}
  | .json (.obj data) => .ok (LoopState.from_dict data)
  | .json _ => .error "AttributeError: object has no attribute get"

/-- Embedding of `LoopManager.save`: the file afterwards holds
`json.dumps(state.to_dict())`, which parses back to exactly the
written object (keys are unique and key order is preserved). -/
def save (s : LoopState) : FileContents := .json (.obj s.to_dict)

/-- Embedding of `LoopManager.add_to_history`: appends one structured
entry tagged with the state's current iteration and phase (Python
`details or {}` collapses an absent details dict to `{}`). -/
def add_to_history (s : LoopState) (event : String)
    (details : Option (List (String × JsonValue))) : LoopState :=
  { s with history := s.history ++
      [JsonValue.obj
        [("iteration", .num s.iteration),
         ("phase", .str s.phase),
         ("event", .str event),
         ("details", .obj (details.getD []))]] }

end LoopCheckpoint


/-! ## Theorems -/

/-- Monotonicity of filtering under a pointwise stronger predicate. -/
theorem length_filter_le_of_imp {α : Type} (l : List α) (p q : α → Bool)
    (h : ∀ a ∈ l, p a = true → q a = true) :
    (l.filter p).length ≤ (l.filter q).length := by
  rw [← List.countP_eq_length_filter, ← List.countP_eq_length_filter]
  exact List.countP_mono_left h

/-- C3: the consensus score of a list of successful responses is 0 for
zero responses, 1 for exactly one, and for two or more responses it is
0 when no vocabulary keyword occurs in any response and otherwise the
number of keywords whose occurrence count strictly exceeds half the
success count divided by the number of distinct keywords occurring in
at least one response; the score always lies in [0, 1]. -/
theorem consensus_score_spec (reviews : List ModelResponse) :
    (reviews.length = 0 → MultiModelReviewer.calculate_consensus reviews = 0) ∧
    (reviews.length = 1 → MultiModelReviewer.calculate_consensus reviews = 1) ∧
    (2 ≤ reviews.length →
      (MultiModelReviewer.mentionedKeywords reviews = [] →
        MultiModelReviewer.calculate_consensus reviews = 0) ∧
      (MultiModelReviewer.mentionedKeywords reviews ≠ [] →
        MultiModelReviewer.calculate_consensus reviews =
          ((MultiModelReviewer.consensusKeywords reviews).length : ℚ) /
            ((MultiModelReviewer.mentionedKeywords reviews).length : ℚ))) ∧
    (∀ kw, kw ∈ MultiModelReviewer.mentionedKeywords reviews ↔
      kw ∈ MultiModelReviewer.CONSENSUS_KEYWORDS ∧
        0 < MultiModelReviewer.keywordCount reviews kw) ∧
    (∀ kw, kw ∈ MultiModelReviewer.consensusKeywords reviews ↔
      kw ∈ MultiModelReviewer.CONSENSUS_KEYWORDS ∧
        0 < MultiModelReviewer.keywordCount reviews kw ∧
        reviews.length < 2 * MultiModelReviewer.keywordCount reviews kw) ∧
    0 ≤ MultiModelReviewer.calculate_consensus reviews ∧
    MultiModelReviewer.calculate_consensus reviews ≤ 1 := by
  have hle : (MultiModelReviewer.consensusKeywords reviews).length ≤
      (MultiModelReviewer.mentionedKeywords reviews).length := by
    apply length_filter_le_of_imp
    intro kw _ hkw
    simp only [Bool.and_eq_true, decide_eq_true_eq] at hkw ⊢
    exact hkw.1
  refine ⟨?_, ?_, ?_, ?_, ?_, ?_, ?_⟩
  · intro h
    simp [MultiModelReviewer.calculate_consensus, h]
  · intro h
    simp [MultiModelReviewer.calculate_consensus, h]
  · intro h2
    have hnl : ¬ reviews.length < 2 := by omega
    constructor
    · intro hm
      simp [MultiModelReviewer.calculate_consensus, hnl, hm]
    · intro hm
      simp [MultiModelReviewer.calculate_consensus, hnl, hm]
  · intro kw
    simp [MultiModelReviewer.mentionedKeywords, List.mem_filter]
  · intro kw
    simp [MultiModelReviewer.consensusKeywords, List.mem_filter, and_assoc]
  · unfold MultiModelReviewer.calculate_consensus
    split
    · split
      · norm_num
      · norm_num
    · split
      · norm_num
      · positivity
  · unfold MultiModelReviewer.calculate_consensus
    split
    · split
      · norm_num
      · norm_num
    · split
      · norm_num
      · rename_i hnl hm
        have hpos : 0 < (MultiModelReviewer.mentionedKeywords reviews).length :=
          List.length_pos.mpr hm
        rw [div_le_one (by exact_mod_cast hpos)]
        exact_mod_cast hle

/-- C3 witness: the single-response and the no-keyword branches of
`consensus_score_spec`, instantiated at concrete inputs. -/
theorem consensus_score_spec_witness :
    MultiModelReviewer.calculate_consensus [⟨"hi", "m", none⟩] = 1 ∧
    MultiModelReviewer.calculate_consensus [⟨"aa", "m1", none⟩, ⟨"bb", "m2", none⟩] = 0 :=
  ⟨(consensus_score_spec [⟨"hi", "m", none⟩]).2.1 (by decide),
   ((consensus_score_spec [⟨"aa", "m1", none⟩, ⟨"bb", "m2", none⟩]).2.2.1
      (by decide)).1 (by decide)⟩

/-- Count of an element in a filtered list, as an if-expression. -/
theorem count_filter_eq_if {α : Type} [DecidableEq α] (l : List α) (p : α → Bool) (a : α) :
    (l.filter p).count a = if p a = true then l.count a else 0 := by
  by_cases h : p a = true
  · rw [if_pos h, List.count_filter h]
  · rw [if_neg h, List.count_eq_zero]
    intro hmem
    exact h (List.mem_filter.mp hmem).2

/-- C4 counterexample: in the batch of two responses both containing
"security" and "보안", the multilingual pair occurs twice in the
mentioned-keyword key set and twice among the consensus keywords —
the pair is counted as two separate keywords, not as one equivalent
term, so it contributes two, not at most one, to both counts. -/
theorem multilingual_pair_counterexample :
    (MultiModelReviewer.mentionedKeywords
        [⟨"security 보안", "m1", none⟩, ⟨"security 보안", "m2", none⟩]).count "security" +
      (MultiModelReviewer.mentionedKeywords
        [⟨"security 보안", "m1", none⟩, ⟨"security 보안", "m2", none⟩]).count "보안" = 2 ∧
    (MultiModelReviewer.consensusKeywords
        [⟨"security 보안", "m1", none⟩, ⟨"security 보안", "m2", none⟩]).count "security" +
      (MultiModelReviewer.consensusKeywords
        [⟨"security 보안", "m1", none⟩, ⟨"security 보안", "m2", none⟩]).count "보안" = 2 := by
  decide

/-- C4 amended: multilingual pairs are separate vocabulary entries,
counted independently — for every batch, the pair ("security", "보안")
contributes one keyword to the total-mentioned count for each member
that occurs, and one keyword to the consensus count for each member
that reaches a strict majority (hence up to two, not at most one). -/
theorem multilingual_pair_amended (reviews : List ModelResponse) :
    (MultiModelReviewer.mentionedKeywords reviews).count "security" +
      (MultiModelReviewer.mentionedKeywords reviews).count "보안" =
      (if 0 < MultiModelReviewer.keywordCount reviews "security" then 1 else 0) +
      (if 0 < MultiModelReviewer.keywordCount reviews "보안" then 1 else 0) ∧
    (MultiModelReviewer.consensusKeywords reviews).count "security" +
      (MultiModelReviewer.consensusKeywords reviews).count "보안" =
      (if 0 < MultiModelReviewer.keywordCount reviews "security" ∧
          reviews.length < 2 * MultiModelReviewer.keywordCount reviews "security"
        then 1 else 0) +
      (if 0 < MultiModelReviewer.keywordCount reviews "보안" ∧
          reviews.length < 2 * MultiModelReviewer.keywordCount reviews "보안"
        then 1 else 0) := by
  have hsec : MultiModelReviewer.CONSENSUS_KEYWORDS.count "security" = 1 := by decide
  have hbo : MultiModelReviewer.CONSENSUS_KEYWORDS.count "보안" = 1 := by decide
  constructor
  · rw [MultiModelReviewer.mentionedKeywords, count_filter_eq_if, count_filter_eq_if, hsec, hbo]
    simp
  · rw [MultiModelReviewer.consensusKeywords, count_filter_eq_if, count_filter_eq_if, hsec, hbo]
    simp [and_comm]

/-- C5: continuing a debate whose round count has reached
`MAX_ROUNDS` (5) raises `ValueError("Maximum rounds (5) reached")`
before any reviewer call, so no further round is ever appended; below
the cap, continuing appends exactly one new round whose round number
is the previous round count plus one, leaving all earlier rounds
unchanged. -/
theorem continue_debate_spec (d : DebateEngine.DebateResult)
    (p : ParallelReviewer.ParallelReviewResult) :
    (DebateEngine.MAX_ROUNDS ≤ d.round_count →
      DebateEngine.continue_debate d p = .error "Maximum rounds (5) reached") ∧
    (d.round_count < DebateEngine.MAX_ROUNDS →
      DebateEngine.continue_debate d p =
        .ok { rounds := d.rounds ++ [DebateEngine.roundOfParallel (d.round_count + 1) p] } ∧
      ∀ d', DebateEngine.continue_debate d p = .ok d' →
        d'.round_count = d.round_count + 1 ∧
        d'.latest_round.map DebateEngine.DebateRound.round_number = some (d.round_count + 1)) := by
  constructor
  · intro h
    simp only [DebateEngine.continue_debate, if_pos h]
    rfl
  · intro h
    have hn : ¬ DebateEngine.MAX_ROUNDS ≤ d.round_count := by omega
    constructor
    · simp [DebateEngine.continue_debate, hn]
    · intro d' hd'
      simp only [DebateEngine.continue_debate, if_neg hn, Except.ok.injEq] at hd'
      subst hd'
      refine ⟨?_, ?_⟩
      · simp [DebateEngine.DebateResult.round_count]
      · simp [DebateEngine.DebateResult.latest_round, DebateEngine.roundOfParallel]

/-- C5 witness: `continue_debate_spec` applied to a concrete 5-round
session (capacity error) and to a concrete 1-round session (one round
appended, numbered 2). -/
theorem continue_debate_spec_witness :
    (DebateEngine.continue_debate
      { rounds := [⟨1, none, none, none, none⟩, ⟨2, none, none, none, none⟩,
        ⟨3, none, none, none, none⟩, ⟨4, none, none, none, none⟩,
        ⟨5, none, none, none, none⟩] }
      { gpt_review := none, claude_review := none } =
        .error "Maximum rounds (5) reached") ∧
    (DebateEngine.continue_debate
      { rounds := [⟨1, some "a", some "b", none, none⟩] }
      { gpt_review := none, claude_review := none } =
        .ok { rounds := [⟨1, some "a", some "b", none, none⟩,
          ⟨2, none, none, none, none⟩] }) := by
  constructor
  · exact (continue_debate_spec
      { rounds := [⟨1, none, none, none, none⟩, ⟨2, none, none, none, none⟩,
        ⟨3, none, none, none, none⟩, ⟨4, none, none, none, none⟩,
        ⟨5, none, none, none, none⟩] }
      { gpt_review := none, claude_review := none }).1 (by decide)
  · have h := (continue_debate_spec
      { rounds := [⟨1, some "a", some "b", none, none⟩] }
      { gpt_review := none, claude_review := none }).2 (by decide)
    simpa [DebateEngine.roundOfParallel, DebateEngine.DebateResult.round_count] using h.1

/-- Characterization of `List.find?` at the first index satisfying the
predicate. -/
theorem find?_eq_some_of_first {α : Type} (p : α → Bool) :
    ∀ (l : List α) (i : Nat) (a : α), l[i]? = some a → p a = true →
    (∀ j b, j < i → l[j]? = some b → p b = false) →
    l.find? p = some a := by
  intro l
  induction l with
  | nil => intro i a ha _ _; simp at ha
  | cons x t ih =>
    intro i a ha hp hfirst
    cases i with
    | zero =>
      simp only [List.getElem?_cons_zero, Option.some.injEq] at ha
      subst ha
      exact List.find?_cons_of_pos _ hp
    | succ n =>
      have hx : p x = false := hfirst 0 x (Nat.succ_pos n) (by simp)
      rw [List.find?_cons_of_neg _ (by simp [hx])]
      exact ih n a (by simpa using ha) hp
        (fun j b hj hb => hfirst (j + 1) b (by omega) (by simpa using hb))

/-- C6: given two present reviewer responses, the conflict detector
returns at most one conflict — the first security keyword (in the
fixed scan order) contained case-insensitively in exactly one of the
two responses yields a single Security conflict recommending the side
that raised it, and scanning stops; with no asymmetric security
keyword, or with either input absent (a failed call), it returns no
conflicts. -/
theorem detect_conflicts_spec (g c : Option ModelResponse) :
    (ParallelReviewer.detect_conflicts g c).length ≤ 1 ∧
    (g = none → ParallelReviewer.detect_conflicts g c = []) ∧
    (c = none → ParallelReviewer.detect_conflicts g c = []) ∧
    (∀ gr cr, g = some gr → c = some cr →
      ((∀ kw ∈ ParallelReviewer.SECURITY_KEYWORDS,
          pyIn kw (pyLower gr.content) = pyIn kw (pyLower cr.content)) →
        ParallelReviewer.detect_conflicts g c = []) ∧
      (∀ (i : Nat) (kw : String), ParallelReviewer.SECURITY_KEYWORDS[i]? = some kw →
        pyIn kw (pyLower gr.content) ≠ pyIn kw (pyLower cr.content) →
        (∀ (j : Nat) (kw' : String), j < i →
          ParallelReviewer.SECURITY_KEYWORDS[j]? = some kw' →
          pyIn kw' (pyLower gr.content) = pyIn kw' (pyLower cr.content)) →
        ParallelReviewer.detect_conflicts g c =
          [{ type := ParallelReviewer.ConflictType.security
             gpt_opinion := if pyIn kw (pyLower gr.content) then "Mentioned security concern"
               else "No security concern mentioned"
             claude_opinion := if pyIn kw (pyLower cr.content) then "Mentioned security concern"
               else "No security concern mentioned"
             recommended := some ("Review security concern from: " ++
               if pyIn kw (pyLower gr.content) then "GPT" else "Claude") }])) := by
  refine ⟨?_, ?_, ?_, ?_⟩
  · cases g with
    | none => simp [ParallelReviewer.detect_conflicts]
    | some gr =>
      cases c with
      | none => simp [ParallelReviewer.detect_conflicts]
      | some cr =>
        simp only [ParallelReviewer.detect_conflicts]
        cases hfind : ParallelReviewer.SECURITY_KEYWORDS.find?
            (fun kw => pyIn kw (pyLower gr.content) != pyIn kw (pyLower cr.content)) <;>
          simp [hfind]
  · intro h; subst h; rfl
  · intro h; subst h; cases g <;> rfl
  · intro gr cr hg hc
    subst hg; subst hc
    constructor
    · intro hall
      have hfind : ParallelReviewer.SECURITY_KEYWORDS.find?
          (fun kw => pyIn kw (pyLower gr.content) != pyIn kw (pyLower cr.content)) = none := by
        rw [List.find?_eq_none]
        intro kw hkw
        simp [hall kw hkw]
      simp [ParallelReviewer.detect_conflicts, hfind]
    · intro i kw hkw hne hfirst
      have hfind : ParallelReviewer.SECURITY_KEYWORDS.find?
          (fun kw => pyIn kw (pyLower gr.content) != pyIn kw (pyLower cr.content)) = some kw := by
        apply find?_eq_some_of_first _ _ i kw hkw (by simpa using hne)
        intro j b hj hb
        simp [hfirst j b hj hb]
      simp [ParallelReviewer.detect_conflicts, hfind]

/-- C6 witness: the detector on ("SQL injection risk", "looks fine")
yields exactly the single Security conflict recommending GPT — the
first asymmetric keyword is "injection" at scan index 2. -/
theorem detect_conflicts_spec_witness :
    ParallelReviewer.detect_conflicts
      (some ⟨"SQL injection risk", "g", none⟩) (some ⟨"looks fine", "c", none⟩) =
      [{ type := ParallelReviewer.ConflictType.security
         gpt_opinion := "Mentioned security concern"
         claude_opinion := "No security concern mentioned"
         recommended := some "Review security concern from: GPT" }] := by
  have h := ((detect_conflicts_spec
      (some ⟨"SQL injection risk", "g", none⟩) (some ⟨"looks fine", "c", none⟩)).2.2.2
      ⟨"SQL injection risk", "g", none⟩ ⟨"looks fine", "c", none⟩ rfl rfl).2
      2 "injection" (by decide) (by decide)
      (by
        intro j kw' hj hkw'
        interval_cases j <;>
          (simp only [ParallelReviewer.SECURITY_KEYWORDS, List.getElem?_cons_zero,
            List.getElem?_cons_succ, Option.some.injEq] at hkw'; subst hkw'; decide))
  simpa [show pyIn "injection" (pyLower "SQL injection risk") = true from by decide,
    show pyIn "injection" (pyLower "looks fine") = false from by decide] using h

/-- Recovery of a string list from its JSON encoding. -/
theorem filterMap_str_map (l : List String) :
    l.filterMap
      ((fun v => match v with | JsonValue.str s => some s | _ => none) ∘ JsonValue.str) = l := by
  induction l with
  | nil => rfl
  | cons a t ih => simp [List.filterMap_cons, ih, Function.comp]

/-- C8: `load_or_create` returns the default state for a missing file
and for a file that `json.loads` cannot parse, and individually
missing fields fall back to their defaults — but a file holding valid
JSON that is not an object (for example `[]`) makes `data.get` raise
`AttributeError`, which the `except (json.JSONDecodeError, KeyError)`
clause does not catch: that corruption is raised to the caller, not
swallowed. -/
theorem load_or_create_spec :
    LoopCheckpoint.load_or_create (.json (.arr [])) =
      .error "AttributeError: object has no attribute get" ∧
    LoopCheckpoint.load_or_create .absent = .ok {} ∧
    LoopCheckpoint.load_or_create .invalidJson = .ok {} ∧
    LoopCheckpoint.LoopState.from_dict [("iteration", .num 3)] =
      { iteration := 3, max_iterations := 5, phase := "plan_review",
        last_conflicts := [], resolved := false, history := [] } ∧
    ({} : LoopCheckpoint.LoopState) =
      { iteration := 1, max_iterations := 5, phase := "plan_review",
        last_conflicts := [], resolved := false, history := [] } :=
  ⟨rfl, rfl, rfl, rfl, rfl⟩

/-- C9: a checkpoint round-trips exactly — `from_dict` of `to_dict`
is the identity on every field, and loading a saved state returns the
state unchanged, nested history entries included. -/
theorem loop_state_round_trip (s : LoopCheckpoint.LoopState) :
    LoopCheckpoint.LoopState.from_dict s.to_dict = s ∧
    LoopCheckpoint.load_or_create (LoopCheckpoint.save s) = .ok s := by
  obtain ⟨it, mi, ph, lc, rv, hi⟩ := s
  have h : LoopCheckpoint.LoopState.from_dict
      (LoopCheckpoint.LoopState.to_dict ⟨it, mi, ph, lc, rv, hi⟩) =
      ⟨it, mi, ph, lc, rv, hi⟩ := by
    simp [LoopCheckpoint.LoopState.from_dict, LoopCheckpoint.LoopState.to_dict,
      LoopCheckpoint.getIntOr, LoopCheckpoint.getStrOr, LoopCheckpoint.getBoolOr,
      LoopCheckpoint.getStrListOr, LoopCheckpoint.getArrOr, LoopCheckpoint.dictGet,
      List.lookup, filterMap_str_map, Function.comp]
  exact ⟨h, by simp [LoopCheckpoint.load_or_create, LoopCheckpoint.save, h]⟩

namespace MultiModelReviewer

/-- Well-formedness of the recorded outcome at index `i`: exactly one
of the review and error slots is filled, and its content corresponds
to client `i` — a filled review slot holds the response client `i`'s
call returned, and a filled error slot holds a message prefixed with
client `i`'s name and ": " (an absorbed exception or the timeout
marker). -/
def GoodAt (clients : List ClientSpec) (i : Nat)
    (reviews : List (Option ModelResponse)) (errors : List (Option String)) : Prop :=
  ∃ c, clients[i]? = some c ∧
    ((∃ resp t, reviews[i]? = some (some resp) ∧ errors[i]? = some none ∧
        c.behavior = CallBehavior.completes t (Except.ok resp)) ∨
     (∃ s, reviews[i]? = some none ∧ errors[i]? = some (some (c.name ++ ": " ++ s))))

/-- Length preservation of the timeout-marking pass. -/
theorem markTimeouts_length (timeout : Nat) :
    ∀ (cs : List ClientSpec) (rs : List (Option ModelResponse)) (es : List (Option String)),
    rs.length = cs.length → es.length = cs.length →
    (markTimeouts timeout cs rs es).length = cs.length
  | [], _, _, _, _ => by simp [markTimeouts]
  | _ :: _, [], _, hr, _ => by simp at hr
  | _ :: _, _ :: _, [], _, he => by simp at he
  | c :: cs, r :: rs, e :: es, hr, he => by
    simp only [markTimeouts, List.length_cons]
    rw [markTimeouts_length timeout cs rs es (by simpa using hr) (by simpa using he)]

/-- Pointwise description of the timeout-marking pass. -/
theorem markTimeouts_getElem? (timeout : Nat) :
    ∀ (cs : List ClientSpec) (rs : List (Option ModelResponse)) (es : List (Option String))
      (i : Nat) (c : ClientSpec) (r : Option ModelResponse) (e : Option String),
    cs[i]? = some c → rs[i]? = some r → es[i]? = some e →
    (markTimeouts timeout cs rs es)[i]? =
      some (if r.isNone && e.isNone then
        some (c.name ++ ": Timed out after " ++ toString timeout ++ "s")
      else e)
  | [], _, _, _, _, _, _, hc, _, _ => by simp at hc
  | _ :: _, [], _, _, _, _, _, _, hr, _ => by simp at hr
  | _ :: _, _ :: _, [], _, _, _, _, _, _, he => by simp at he
  | c0 :: cs, r0 :: rs, e0 :: es, 0, c, r, e, hc, hr, he => by
    simp only [List.getElem?_cons_zero, Option.some.injEq] at hc hr he
    subst hc; subst hr; subst he
    simp [markTimeouts]
  | c0 :: cs, r0 :: rs, e0 :: es, i + 1, c, r, e, hc, hr, he => by
    simp only [markTimeouts, List.getElem?_cons_succ]
    exact markTimeouts_getElem? timeout cs rs es i c r e
      (by simpa using hc) (by simpa using hr) (by simpa using he)

/-- Shape of a non-timeout wait result: the recorded pair is either a
returned response with no error, or no response with the wrapper's
name-prefixed absorbed exception message. -/
theorem futureWait_some (c : ClientSpec) (now timeout t : Nat)
    (r : Option ModelResponse) (e : Option String)
    (h : futureWait c now timeout = some (t, r, e)) :
    (∃ resp t0, r = some resp ∧ e = none ∧
      c.behavior = CallBehavior.completes t0 (Except.ok resp)) ∨
    (∃ msg t0, r = none ∧ e = some (c.name ++ ": " ++ msg) ∧
      c.behavior = CallBehavior.completes t0 (Except.error msg)) := by
  unfold futureWait at h
  split at h
  · simp at h
  · rename_i t0 res heq
    split at h
    · cases res with
      | ok resp =>
        simp only [Option.some.injEq, Prod.mk.injEq] at h
        exact Or.inl ⟨resp, t0, h.2.1.symm, h.2.2.symm, heq⟩
      | error msg =>
        simp only [Option.some.injEq, Prod.mk.injEq] at h
        exact Or.inr ⟨msg, t0, h.2.1.symm, h.2.2.symm, heq⟩
    · simp at h

end MultiModelReviewer

namespace MultiModelReviewer

/-- Reassociation of the timeout marker message around the reviewer
name prefix. -/
theorem timedOutMsg_split (n T : String) :
    n ++ ": Timed out after " ++ T ++ "s" =
      n ++ ": " ++ ("Timed out after " ++ T ++ "s") := by
  rw [show (": Timed out after " : String) = ": " ++ "Timed out after " from rfl]
  rw [← String.append_assoc n ": " "Timed out after "]
  rw [String.append_assoc (n ++ ": ") "Timed out after " T]
  rw [String.append_assoc (n ++ ": ") ("Timed out after " ++ T) "s"]

/-- Invariant of the collection loop: if every pending future's index
is in bounds and matches its client, pending indices are distinct and
still unrecorded, and every non-pending index already holds a
well-formed outcome, then after the loop both arrays keep their length
and every index holds a well-formed outcome. -/
theorem collect_good (clients : List ClientSpec) (timeout : Nat) :
    ∀ (futs : List (Nat × ClientSpec)) (now : Nat)
      (reviews : List (Option ModelResponse)) (errors : List (Option String)),
    reviews.length = clients.length →
    errors.length = clients.length →
    (∀ p ∈ futs, clients[p.1]? = some p.2) →
    List.Pairwise (fun p q => p.1 ≠ q.1) futs →
    (∀ i, i < clients.length →
      GoodAt clients i reviews errors ∨
      ((∃ c, (i, c) ∈ futs) ∧ reviews[i]? = some none ∧ errors[i]? = some none)) →
    (collect clients timeout futs now reviews errors).1.length = clients.length ∧
    (collect clients timeout futs now reviews errors).2.length = clients.length ∧
    ∀ i, i < clients.length →
      GoodAt clients i (collect clients timeout futs now reviews errors).1
        (collect clients timeout futs now reviews errors).2 := by
  intro futs
  induction futs with
  | nil =>
    intro now reviews errors hr he _ _ hinv
    refine ⟨hr, he, ?_⟩
    intro i hi
    rcases hinv i hi with h | ⟨⟨c, hc⟩, _, _⟩
    · exact h
    · simp at hc
  | cons p rest ih =>
    obtain ⟨idx, c⟩ := p
    intro now reviews errors hr he hmem hpw hinv
    have hc : clients[idx]? = some c := hmem (idx, c) (List.mem_cons_self _ _)
    have hidx : idx < clients.length := (List.getElem?_eq_some.mp hc).1
    cases hw : futureWait c now timeout with
    | some trip =>
      obtain ⟨t, r, e⟩ := trip
      have hred : collect clients timeout ((idx, c) :: rest) now reviews errors =
          collect clients timeout rest t (reviews.set idx r) (errors.set idx e) := by
        simp [collect, hw]
      rw [hred]
      apply ih t (reviews.set idx r) (errors.set idx e) (by simp [hr]) (by simp [he])
        (fun q hq => hmem q (List.mem_cons_of_mem _ hq)) (List.pairwise_cons.mp hpw).2
      intro i hi
      by_cases hieq : i = idx
      · subst hieq
        left
        have hrlt : i < reviews.length := by omega
        have helt : i < errors.length := by omega
        rcases futureWait_some c now timeout t r e hw with
          ⟨resp, t0, hrr, hee, hb⟩ | ⟨msg, t0, hrr, hee, hb⟩
        · exact ⟨c, hc, Or.inl ⟨resp, t0,
            by rw [List.getElem?_set_eq_of_lt r hrlt, hrr],
            by rw [List.getElem?_set_eq_of_lt e helt, hee], hb⟩⟩
        · exact ⟨c, hc, Or.inr ⟨msg,
            by rw [List.getElem?_set_eq_of_lt r hrlt, hrr],
            by rw [List.getElem?_set_eq_of_lt e helt, hee]⟩⟩
      · have hrset : (reviews.set idx r)[i]? = reviews[i]? :=
          List.getElem?_set_ne (Ne.symm hieq)
        have heset : (errors.set idx e)[i]? = errors[i]? :=
          List.getElem?_set_ne (Ne.symm hieq)
        rcases hinv i hi with hgood | ⟨⟨c', hc'⟩, hrn, hen⟩
        · left
          obtain ⟨cc, hcc, hdisj⟩ := hgood
          refine ⟨cc, hcc, ?_⟩
          rcases hdisj with ⟨resp, t0, h1, h2, h3⟩ | ⟨s, h1, h2⟩
          · exact Or.inl ⟨resp, t0, by rw [hrset]; exact h1, by rw [heset]; exact h2, h3⟩
          · exact Or.inr ⟨s, by rw [hrset]; exact h1, by rw [heset]; exact h2⟩
        · right
          refine ⟨⟨c', ?_⟩, by rw [hrset]; exact hrn, by rw [heset]; exact hen⟩
          rcases List.mem_cons.mp hc' with heq | hmem'
          · exact absurd (congrArg Prod.fst heq) hieq
          · exact hmem'
    | none =>
      have hred : collect clients timeout ((idx, c) :: rest) now reviews errors =
          (reviews, markTimeouts timeout clients reviews errors) := by
        simp [collect, hw]
      rw [hred]
      refine ⟨hr, markTimeouts_length timeout clients reviews errors hr he, ?_⟩
      intro i hi
      obtain ⟨ci, hci⟩ : ∃ ci, clients[i]? = some ci :=
        ⟨clients[i], List.getElem?_eq_getElem hi⟩
      obtain ⟨ri, hri⟩ : ∃ ri, reviews[i]? = some ri := by
        have hir : i < reviews.length := by omega
        exact ⟨reviews[i], List.getElem?_eq_getElem hir⟩
      obtain ⟨ei, hei⟩ : ∃ ei, errors[i]? = some ei := by
        have hie : i < errors.length := by omega
        exact ⟨errors[i], List.getElem?_eq_getElem hie⟩
      have hm := markTimeouts_getElem? timeout clients reviews errors i ci ri ei hci hri hei
      rcases hinv i hi with hgood | ⟨_, hrn, hen⟩
      · obtain ⟨cc, hcc, hdisj⟩ := hgood
        have hcceq : ci = cc := by
          rw [hci] at hcc; exact Option.some.inj hcc
        subst hcceq
        refine ⟨ci, hci, ?_⟩
        rcases hdisj with ⟨resp, t0, h1, h2, h3⟩ | ⟨s, h1, h2⟩
        · have hri2 : ri = some resp := by rw [hri] at h1; exact Option.some.inj h1
          have hei2 : ei = none := by rw [hei] at h2; exact Option.some.inj h2
          subst hri2; subst hei2
          exact Or.inl ⟨resp, t0, h1, by simpa using hm, h3⟩
        · have hri2 : ri = none := by rw [hri] at h1; exact Option.some.inj h1
          have hei2 : ei = some (ci.name ++ ": " ++ s) := by
            rw [hei] at h2; exact Option.some.inj h2
          subst hri2; subst hei2
          exact Or.inr ⟨s, h1, by simpa using hm⟩
      · have hri2 : ri = none := by rw [hri] at hrn; exact Option.some.inj hrn
        have hei2 : ei = none := by rw [hei] at hen; exact Option.some.inj hen
        subst hri2; subst hei2
        refine ⟨ci, hci, Or.inr
          ⟨"Timed out after " ++ toString timeout ++ "s", hri, ?_⟩⟩
        rw [← timedOutMsg_split ci.name (toString timeout)]
        simpa using hm

end MultiModelReviewer

/-- Indices in `List.enumFrom` are pairwise distinct. -/
theorem enumFrom_pairwise_fst {α : Type} (l : List α) :
    ∀ n, List.Pairwise (fun p q : Nat × α => p.1 ≠ q.1) (List.enumFrom n l) := by
  induction l with
  | nil => intro n; simp
  | cons a t ih =>
    intro n
    refine List.Pairwise.cons ?_ (ih (n + 1))
    intro p hp
    obtain ⟨i, x⟩ := p
    have hle := (List.mk_mem_enumFrom_iff_le_and_getElem?_sub.mp hp).1
    simp only [ne_eq]
    omega

/-- Indices in `List.enum` are pairwise distinct. -/
theorem enum_pairwise_fst {α : Type} (l : List α) :
    List.Pairwise (fun p q : Nat × α => p.1 ≠ q.1) l.enum :=
  enumFrom_pairwise_fst l 0

/-- C1: for every batch over N >= 1 clients and any completion
behaviors (hence any completion order), the result's review and error
lists both have exactly N entries, and at every index exactly one of
the review and error slots is filled, with content corresponding to
the client at that same index. -/
theorem multi_model_review_outcomes (clients : List ClientSpec) (timeout : Nat)
    (h : 1 ≤ clients.length) :
    (MultiModelReviewer.review clients timeout).reviews.length = clients.length ∧
    (MultiModelReviewer.review clients timeout).errors.length = clients.length ∧
    ∀ i, i < clients.length →
      MultiModelReviewer.GoodAt clients i
        (MultiModelReviewer.review clients timeout).reviews
        (MultiModelReviewer.review clients timeout).errors := by
  have hg := MultiModelReviewer.collect_good clients timeout clients.enum 0
    (List.replicate clients.length none) (List.replicate clients.length none)
    (by simp) (by simp)
    (by
      intro p hp
      obtain ⟨i, c⟩ := p
      exact List.mk_mem_enum_iff_getElem?.mp hp)
    (enum_pairwise_fst clients)
    (by
      intro i hi
      right
      refine ⟨⟨clients[i],
        List.mk_mem_enum_iff_getElem?.mpr (List.getElem?_eq_getElem hi)⟩, ?_, ?_⟩ <;>
        simp [List.getElem?_replicate, hi])
  simpa [MultiModelReviewer.review] using hg

/-- C1 witness: `multi_model_review_outcomes` applied to a concrete
one-client batch. -/
theorem multi_model_review_outcomes_witness :
    (MultiModelReviewer.review
      [⟨"m", CallBehavior.completes 0 (Except.ok ⟨"hi", "m", none⟩)⟩] 5).reviews.length = 1 ∧
    MultiModelReviewer.GoodAt
      [⟨"m", CallBehavior.completes 0 (Except.ok ⟨"hi", "m", none⟩)⟩] 0
      (MultiModelReviewer.review
        [⟨"m", CallBehavior.completes 0 (Except.ok ⟨"hi", "m", none⟩)⟩] 5).reviews
      (MultiModelReviewer.review
        [⟨"m", CallBehavior.completes 0 (Except.ok ⟨"hi", "m", none⟩)⟩] 5).errors := by
  have h := multi_model_review_outcomes
    [⟨"m", CallBehavior.completes 0 (Except.ok ⟨"hi", "m", none⟩)⟩] 5 (by decide)
  exact ⟨h.1, h.2.2 0 (by decide)⟩

/-- C2 counterexample: in a batch of three reviewers where reviewer 1
never returns within the aggregate timeout (10s), reviewer 2's task
completed at t=1 (before the wait on reviewer 1 expired) and reviewer
3's task would have completed at t=11 (just after), the engine marks
ALL three reviewers timed out — reviewer 2 does not keep its real
result, because outcomes are recorded only when futures are collected
in submission order and collection aborts at reviewer 1. -/
theorem short_circuit_counterexample :
    MultiModelReviewer.review
      [⟨"m1", CallBehavior.never⟩,
       ⟨"m2", CallBehavior.completes 1 (Except.ok ⟨"ok2", "m2", none⟩)⟩,
       ⟨"m3", CallBehavior.completes 11 (Except.ok ⟨"ok3", "m3", none⟩)⟩] 10 =
      { reviews := [none, none, none],
        errors := [some "m1: Timed out after 10s", some "m2: Timed out after 10s",
          some "m3: Timed out after 10s"],
        consensus_score := 0 } := by
  decide

/-- C2 amended: in a batch of three reviewers where reviewer 1 never
returns within the aggregate timeout, reviewer 2's task completed
within the timeout and reviewer 3's would have completed just after,
the short-circuit marks reviewer 1, reviewer 2 AND reviewer 3 timed
out: no outcome after the first expired wait is recorded — reviewer
2's completed result is discarded, not kept. -/
theorem short_circuit_timeout (n1 n2 n3 : String) (r2 r3 : ModelResponse)
    (t2 t3 timeout : Nat) (h2 : t2 ≤ timeout) (h3 : timeout < t3) :
    MultiModelReviewer.review
      [⟨n1, CallBehavior.never⟩,
       ⟨n2, CallBehavior.completes t2 (Except.ok r2)⟩,
       ⟨n3, CallBehavior.completes t3 (Except.ok r3)⟩] timeout =
      { reviews := [none, none, none],
        errors := [some (n1 ++ ": Timed out after " ++ toString timeout ++ "s"),
          some (n2 ++ ": Timed out after " ++ toString timeout ++ "s"),
          some (n3 ++ ": Timed out after " ++ toString timeout ++ "s")],
        consensus_score := 0 } := by
  simp [MultiModelReviewer.review, MultiModelReviewer.collect,
    MultiModelReviewer.futureWait, MultiModelReviewer.markTimeouts,
    List.enum, List.enumFrom, List.replicate,
    MultiModelReviewer.calculate_consensus]

/-- C2 witness: `short_circuit_timeout` at a concrete batch with
timeout 8s, reviewer 2 completing at 2s and reviewer 3 at 9s. -/
theorem short_circuit_timeout_witness :
    MultiModelReviewer.review
      [⟨"a", CallBehavior.never⟩,
       ⟨"b", CallBehavior.completes 2 (Except.ok ⟨"x", "b", none⟩)⟩,
       ⟨"c", CallBehavior.completes 9 (Except.ok ⟨"y", "c", none⟩)⟩] 8 =
      { reviews := [none, none, none],
        errors := [some "a: Timed out after 8s", some "b: Timed out after 8s",
          some "c: Timed out after 8s"],
        consensus_score := 0 } := by
  rw [short_circuit_timeout "a" "b" "c" ⟨"x", "b", none⟩ ⟨"y", "c", none⟩ 2 9 8
    (by decide) (by decide)]
  decide

namespace MultiModelReviewer

/-- Outcome pair the wrapper `call_model` hands back for a completed
task: the response with no error, or no response with the name-prefixed
absorbed exception message. -/
def callOutcome (c : ClientSpec) : Option ModelResponse × Option String :=
  match c.behavior with
  | .completes _ (Except.ok resp) => (some resp, none)
  | .completes _ (Except.error msg) => (none, some (c.name ++ ": " ++ msg))
  | .never => (none, none)

/-- Length preservation of the collection loop. -/
theorem collect_length (clients : List ClientSpec) (timeout : Nat) :
    ∀ (futs : List (Nat × ClientSpec)) (now : Nat)
      (reviews : List (Option ModelResponse)) (errors : List (Option String)),
    reviews.length = clients.length →
    errors.length = clients.length →
    (collect clients timeout futs now reviews errors).1.length = clients.length ∧
    (collect clients timeout futs now reviews errors).2.length = clients.length := by
  intro futs
  induction futs with
  | nil => intro now reviews errors hr he; exact ⟨hr, he⟩
  | cons p rest ih =>
    obtain ⟨idx, c⟩ := p
    intro now reviews errors hr he
    cases hw : futureWait c now timeout with
    | some trip =>
      obtain ⟨t, r, e⟩ := trip
      have hred : collect clients timeout ((idx, c) :: rest) now reviews errors =
          collect clients timeout rest t (reviews.set idx r) (errors.set idx e) := by
        simp [collect, hw]
      rw [hred]
      exact ih t (reviews.set idx r) (errors.set idx e) (by simp [hr]) (by simp [he])
    | none =>
      have hred : collect clients timeout ((idx, c) :: rest) now reviews errors =
          (reviews, markTimeouts timeout clients reviews errors) := by
        simp [collect, hw]
      rw [hred]
      exact ⟨hr, markTimeouts_length timeout clients reviews errors hr he⟩

/-- When every pending task completes within the per-wait timeout, the
collection loop never hits the timeout branch: it records exactly the
wrapper outcome at each pending index and leaves every other index
untouched. -/
theorem collect_all_completed (clients : List ClientSpec) (timeout : Nat) :
    ∀ (futs : List (Nat × ClientSpec)) (now : Nat)
      (reviews : List (Option ModelResponse)) (errors : List (Option String)),
    reviews.length = clients.length →
    errors.length = clients.length →
    (∀ p ∈ futs, p.1 < clients.length) →
    List.Pairwise (fun p q : Nat × ClientSpec => p.1 ≠ q.1) futs →
    (∀ p ∈ futs, ∃ t res, p.2.behavior = CallBehavior.completes t res ∧ t ≤ timeout) →
    (∀ p ∈ futs,
      (collect clients timeout futs now reviews errors).1[p.1]? =
        some (callOutcome p.2).1 ∧
      (collect clients timeout futs now reviews errors).2[p.1]? =
        some (callOutcome p.2).2) ∧
    (∀ i, (∀ c, (i, c) ∉ futs) →
      (collect clients timeout futs now reviews errors).1[i]? = reviews[i]? ∧
      (collect clients timeout futs now reviews errors).2[i]? = errors[i]?) := by
  intro futs
  induction futs with
  | nil =>
    intro now reviews errors _ _ _ _ _
    exact ⟨by simp, fun i _ => ⟨rfl, rfl⟩⟩
  | cons p rest ih =>
    obtain ⟨idx, c⟩ := p
    intro now reviews errors hr he hbound hpw hcomp
    obtain ⟨t, res, hb, hle⟩ := hcomp (idx, c) (List.mem_cons_self _ _)
    have hidx : idx < clients.length := hbound (idx, c) (List.mem_cons_self _ _)
    have hle2 : t ≤ now + timeout := by omega
    have hb' : c.behavior = CallBehavior.completes t res := hb
    have hw : futureWait c now timeout =
        some (max now t, (callOutcome c).1, (callOutcome c).2) := by
      cases res <;> simp [futureWait, callOutcome, hb', hle2]
    have hred : collect clients timeout ((idx, c) :: rest) now reviews errors =
        collect clients timeout rest (max now t)
          (reviews.set idx (callOutcome c).1) (errors.set idx (callOutcome c).2) := by
      simp [collect, hw]
    have hhead : ∀ q ∈ rest, idx ≠ q.1 := (List.pairwise_cons.mp hpw).1
    have ihres := ih (max now t)
      (reviews.set idx (callOutcome c).1) (errors.set idx (callOutcome c).2)
      (by simp [hr]) (by simp [he])
      (fun q hq => hbound q (List.mem_cons_of_mem _ hq))
      (List.pairwise_cons.mp hpw).2
      (fun q hq => hcomp q (List.mem_cons_of_mem _ hq))
    rw [hred]
    constructor
    · intro q hq
      rcases List.mem_cons.mp hq with heq | hmem'
      · subst heq
        have hnotin : ∀ c', (idx, c') ∉ rest := fun c' hmem' =>
          (hhead (idx, c') hmem') rfl
        have huntouched := ihres.2 idx hnotin
        refine ⟨?_, ?_⟩
        · rw [huntouched.1, List.getElem?_set_eq_of_lt _ (by omega)]
        · rw [huntouched.2, List.getElem?_set_eq_of_lt _ (by omega)]
      · exact ihres.1 q hmem'
    · intro i hnot
      have hine : i ≠ idx := fun hh => hnot c (hh ▸ List.mem_cons_self _ _)
      have huntouched := ihres.2 i (fun c' hmem' => hnot c' (List.mem_cons_of_mem _ hmem'))
      refine ⟨?_, ?_⟩
      · rw [huntouched.1, List.getElem?_set_ne (Ne.symm hine)]
      · rw [huntouched.2, List.getElem?_set_ne (Ne.symm hine)]

end MultiModelReviewer

/-- C7: constructing the N-model reviewer with an empty client list
raises the configuration error before any call; for a non-empty
client list whose clients all raise exceptions (completing within the
timeout), the batch call still returns a result object — every raised
exception is absorbed into the error slot as "<reviewerId>: <message>"
with no review recorded, and the all-failure batch is distinguishable
via `any_success`/`all_success` while keeping one outcome per client. -/
theorem multi_model_error_handling (clients : List ClientSpec) (timeout : Nat)
    (hne : clients ≠ [])
    (hfail : ∀ c ∈ clients, ∃ t msg,
      c.behavior = CallBehavior.completes t (Except.error msg) ∧ t ≤ timeout) :
    MultiModelReviewer.mkMultiModelReviewer [] =
      Except.error "At least one model client is required" ∧
    MultiModelReviewer.mkMultiModelReviewer clients = Except.ok clients ∧
    (MultiModelReviewer.review clients timeout).reviews =
      List.replicate clients.length none ∧
    (MultiModelReviewer.review clients timeout).total_count = clients.length ∧
    (MultiModelReviewer.review clients timeout).any_success = false ∧
    (MultiModelReviewer.review clients timeout).all_success = false ∧
    ∀ i, i < clients.length → ∃ c t msg, clients[i]? = some c ∧
      c.behavior = CallBehavior.completes t (Except.error msg) ∧
      (MultiModelReviewer.review clients timeout).errors[i]? =
        some (some (c.name ++ ": " ++ msg)) := by
  have hne' : clients.isEmpty = false := by simpa [List.isEmpty_iff] using hne
  have hall := MultiModelReviewer.collect_all_completed clients timeout clients.enum 0
    (List.replicate clients.length none) (List.replicate clients.length none)
    (by simp) (by simp)
    (by
      intro p hp
      obtain ⟨i, c⟩ := p
      exact (List.getElem?_eq_some.mp (List.mk_mem_enum_iff_getElem?.mp hp)).1)
    (enum_pairwise_fst clients)
    (by
      intro p hp
      obtain ⟨i, c⟩ := p
      have hci := List.mk_mem_enum_iff_getElem?.mp hp
      obtain ⟨hl, rfl⟩ := List.getElem?_eq_some.mp hci
      obtain ⟨t, msg, hb, hle⟩ := hfail clients[i] (List.getElem_mem hl)
      exact ⟨t, Except.error msg, hb, hle⟩)
  have hlen := MultiModelReviewer.collect_length clients timeout clients.enum 0
    (List.replicate clients.length none) (List.replicate clients.length none)
    (by simp) (by simp)
  have hrv : (MultiModelReviewer.review clients timeout).reviews =
      List.replicate clients.length none := by
    have hdef : (MultiModelReviewer.review clients timeout).reviews =
        (MultiModelReviewer.collect clients timeout clients.enum 0
          (List.replicate clients.length none) (List.replicate clients.length none)).1 := rfl
    rw [hdef]
    apply List.ext_getElem?
    intro i
    by_cases hi : i < clients.length
    · have hp : (i, clients[i]) ∈ clients.enum :=
        List.mk_mem_enum_iff_getElem?.mpr (List.getElem?_eq_getElem hi)
      obtain ⟨t, msg, hb, _⟩ := hfail clients[i] (List.getElem_mem hi)
      have hco : MultiModelReviewer.callOutcome clients[i] =
          (none, some (clients[i].name ++ ": " ++ msg)) := by
        simp [MultiModelReviewer.callOutcome, hb]
      rw [(hall.1 (i, clients[i]) hp).1, hco]
      simp [List.getElem?_replicate, hi]
    · rw [List.getElem?_eq_none (by rw [hlen.1]; omega),
        List.getElem?_eq_none (by simp; omega)]
  have hN : 0 < clients.length := List.length_pos.mpr hne
  have hallsucc : (List.replicate clients.length (none : Option ModelResponse)).all
      Option.isSome = false := by
    cases hcl : clients.length with
    | zero => omega
    | succ m => simp [List.replicate]
  refine ⟨rfl, by simp [MultiModelReviewer.mkMultiModelReviewer, hne'], hrv, ?_, ?_, ?_, ?_⟩
  · show (MultiModelReviewer.review clients timeout).reviews.length = clients.length
    rw [hrv, List.length_replicate]
  · show (MultiModelReviewer.review clients timeout).reviews.any Option.isSome = false
    rw [hrv]
    cases hcl : clients.length with
    | zero => simp [List.replicate]
    | succ m => simp [List.replicate]
  · show (MultiModelReviewer.review clients timeout).reviews.all Option.isSome = false
    rw [hrv, hallsucc]
  · intro i hi
    obtain ⟨t, msg, hb, hle⟩ := hfail clients[i] (List.getElem_mem hi)
    refine ⟨clients[i], t, msg, List.getElem?_eq_getElem hi, hb, ?_⟩
    have hp : (i, clients[i]) ∈ clients.enum :=
      List.mk_mem_enum_iff_getElem?.mpr (List.getElem?_eq_getElem hi)
    have hdef : (MultiModelReviewer.review clients timeout).errors =
        (MultiModelReviewer.collect clients timeout clients.enum 0
          (List.replicate clients.length none) (List.replicate clients.length none)).2 := rfl
    rw [hdef, (hall.1 (i, clients[i]) hp).2]
    simp [MultiModelReviewer.callOutcome, hb]

/-- C7 witness: `multi_model_error_handling` on a concrete two-client
batch whose calls both raise. -/
theorem multi_model_error_handling_witness :
    (MultiModelReviewer.review
      [⟨"m1", CallBehavior.completes 0 (Except.error "boom")⟩,
       ⟨"m2", CallBehavior.completes 1 (Except.error "crash")⟩] 5).any_success = false ∧
    (MultiModelReviewer.review
      [⟨"m1", CallBehavior.completes 0 (Except.error "boom")⟩,
       ⟨"m2", CallBehavior.completes 1 (Except.error "crash")⟩] 5).total_count = 2 := by
  have h := multi_model_error_handling
    [⟨"m1", CallBehavior.completes 0 (Except.error "boom")⟩,
     ⟨"m2", CallBehavior.completes 1 (Except.error "crash")⟩] 5
    (List.cons_ne_nil _ _)
    (by
      intro c hc
      rcases List.mem_cons.mp hc with rfl | hc'
      · exact ⟨0, "boom", rfl, by decide⟩
      · rcases List.mem_cons.mp hc' with rfl | hc''
        · exact ⟨1, "crash", rfl, by decide⟩
        · simp at hc'')
  exact ⟨h.2.2.2.2.1, h.2.2.2.1⟩

namespace ParallelReviewer

/-- Every party wait records exactly one of response and error. -/
theorem partyWait_one_of (party : String) (b : CallBehavior) (now timeout : Nat) :
    ((partyWait party b now timeout).2.1.isSome ↔
      (partyWait party b now timeout).2.2 = none) := by
  cases b with
  | never => simp [partyWait]
  | completes t res =>
    by_cases h : t ≤ now + timeout
    · cases res <;> simp [partyWait, h]
    · simp [partyWait, h]

/-- A party whose task returns a response within its wait window is
recorded with that response and no error. -/
theorem partyWait_ok_case (party : String) (b : CallBehavior) (now timeout t : Nat)
    (r : ModelResponse) (hb : b = CallBehavior.completes t (Except.ok r))
    (hle : t ≤ now + timeout) :
    (partyWait party b now timeout).2 = (some r, none) := by
  subst hb; simp [partyWait, hle]

/-- A party whose task never completes is recorded with the party's
timeout message after its own full wait. -/
theorem partyWait_never_case (party : String) (now timeout : Nat) :
    (partyWait party CallBehavior.never now timeout).2 =
      (none, some (party ++ " timed out after " ++ toString timeout ++ "s")) := by
  simp [partyWait]

end ParallelReviewer

/-- C10: the two-party reviewer never raises — for each party exactly
one of the response and error slots is filled — and the two waits are
independent: whatever GPT's behavior (including never completing, which
exhausts GPT's wait), a Claude task that returns within the aggregate
timeout is still collected with its real response, because Claude's
`future.result` is given its own full timeout after GPT's collection
(no short-circuit in this path); a never-completing Claude is marked
with Claude's own timeout message. -/
theorem parallel_review_independent (gpt claude : ClientSpec) (timeout : Nat) :
    ((ParallelReviewer.review gpt claude timeout).gpt_review.isSome ↔
      (ParallelReviewer.review gpt claude timeout).gpt_error = none) ∧
    ((ParallelReviewer.review gpt claude timeout).claude_review.isSome ↔
      (ParallelReviewer.review gpt claude timeout).claude_error = none) ∧
    (∀ t r, gpt.behavior = CallBehavior.completes t (Except.ok r) → t ≤ timeout →
      (ParallelReviewer.review gpt claude timeout).gpt_review = some r) ∧
    (∀ t r, claude.behavior = CallBehavior.completes t (Except.ok r) → t ≤ timeout →
      (ParallelReviewer.review gpt claude timeout).claude_review = some r) ∧
    (claude.behavior = CallBehavior.never →
      (ParallelReviewer.review gpt claude timeout).claude_review = none ∧
      (ParallelReviewer.review gpt claude timeout).claude_error =
        some ("Claude timed out after " ++ toString timeout ++ "s")) := by
  refine ⟨ParallelReviewer.partyWait_one_of "GPT" gpt.behavior 0 timeout,
    ParallelReviewer.partyWait_one_of "Claude" claude.behavior
      (ParallelReviewer.partyWait "GPT" gpt.behavior 0 timeout).1 timeout, ?_, ?_, ?_⟩
  · intro t r hb hle
    have h := ParallelReviewer.partyWait_ok_case "GPT" gpt.behavior 0 timeout t r hb
      (by omega)
    show (ParallelReviewer.partyWait "GPT" gpt.behavior 0 timeout).2.1 = some r
    rw [h]
  · intro t r hb hle
    have h := ParallelReviewer.partyWait_ok_case "Claude" claude.behavior
      (ParallelReviewer.partyWait "GPT" gpt.behavior 0 timeout).1 timeout t r hb
      (by omega)
    show (ParallelReviewer.partyWait "Claude" claude.behavior
      (ParallelReviewer.partyWait "GPT" gpt.behavior 0 timeout).1 timeout).2.1 = some r
    rw [h]
  · intro hb
    have h := ParallelReviewer.partyWait_never_case "Claude"
      (ParallelReviewer.partyWait "GPT" gpt.behavior 0 timeout).1 timeout
    constructor
    · show (ParallelReviewer.partyWait "Claude" claude.behavior
        (ParallelReviewer.partyWait "GPT" gpt.behavior 0 timeout).1 timeout).2.1 = none
      rw [hb, h]
    · show (ParallelReviewer.partyWait "Claude" claude.behavior
        (ParallelReviewer.partyWait "GPT" gpt.behavior 0 timeout).1 timeout).2.2 =
          some ("Claude timed out after " ++ toString timeout ++ "s")
      rw [hb, h]
      rfl

/-- C10 witness: with GPT never completing and Claude returning at 3s
within the 10s timeout, Claude's real response is kept. -/
theorem parallel_review_independent_witness :
    (ParallelReviewer.review ⟨"g", CallBehavior.never⟩
      ⟨"c", CallBehavior.completes 3 (Except.ok ⟨"fine", "c", none⟩)⟩ 10).claude_review =
      some ⟨"fine", "c", none⟩ :=
  (parallel_review_independent ⟨"g", CallBehavior.never⟩
    ⟨"c", CallBehavior.completes 3 (Except.ok ⟨"fine", "c", none⟩)⟩ 10).2.2.2.1 3
    ⟨"fine", "c", none⟩ rfl (by decide)
